import Mathlib

/-!
Verification development for a Brainfuck interpreter family (`bfi.py`):
a base interpreter `Bfi` and three extension dialects `BfiT1`, `BfiT2`,
`BfiT3` selected by a level number 0..3.

The Python code is shallowly embedded below.  Conventions:

* Python machine integers are modelled as `Nat`/`Int`.  Every integer the
  program ever writes into a tape cell or the register is non-negative
  (all arithmetic results pass through `% 256` with a positive modulus,
  `ord` is non-negative, and the nibble literals are non-negative), so
  the integer payload of a cell is carried as a `Nat`; operations whose
  Python expression can go negative before the final `%` (`-`, `_`, `~`,
  `<`, `?`) compute through `Int` with `Int.emod`, which agrees with
  Python's `%` for a positive modulus.
* Python exceptions are modelled with `Except`/an error code: IndexError
  (list indexing/`pop` out of range), ZeroDivisionError (`/` or `%` by
  zero, including `% 0` on pointer arithmetic with a zero-length tape),
  TypeError (arithmetic on a string cell), ValueError (the brace
  validation failure raised in `Bfi.load`, and `chr` out of range),
  EOFError (`input()` with no line available).
* A cell can hold a Python `str`, because `Bfi.get_char` executes
  `self.stack[self.stack_ptr] = input()[0]`, storing the one-character
  string itself.  Hence cells carry `PyVal`, integer or character.
* `sys.exit(0)` in `BfiT1.end_prog` is modelled as a distinct `exit0`
  outcome of a step: the process terminates, no further interpreter
  state exists.
* The I/O device is external to the interpreter: input is a list of
  lines handed to the run, output is the list of emitted character
  codes.
* `self.stack_length` is the construction-time capacity; `self.stack`
  is the live tape whose length can change at level 2+.
-/

namespace BF

/-- A Python value that can sit in a tape cell or the register: an int
(always non-negative in this program) or a one-character string as stored
by `get_char`. -/
inductive PyVal where
  | intV (n : Nat)
  | strV (c : Char)
deriving Repr, DecidableEq

/-- The Python exceptions this program can raise. -/
inductive PyError where
  | indexError
  | zeroDivisionError
  | typeError
  | valueError
  | eofError
deriving Repr, DecidableEq

instance instDecEqExceptBF {e a : Type} [DecidableEq e] [DecidableEq a] :
    DecidableEq (Except e a) := fun x y =>
  match x, y with
  | .ok u, .ok v =>
    if h : u = v then isTrue (by rw [h]) else isFalse (fun hc => by cases hc; exact h rfl)
  | .error u, .error v =>
    if h : u = v then isTrue (by rw [h]) else isFalse (fun hc => by cases hc; exact h rfl)
  | .ok _, .error _ => isFalse (fun hc => by cases hc)
  | .error _, .ok _ => isFalse (fun hc => by cases hc)

/-- The mutable attributes of a `Bfi`/`BfiT1`/`BfiT2`/`BfiT3` instance.
Lower dialect levels simply never touch the fields their class does not
define (`storage`, `init_data` for `initializer_data`, `storage_ptr`). -/
structure BfiState where
  stack_length : Nat
  stack : List PyVal
  stack_ptr : Nat
  inst_stack : List Nat
  inst_ptr : Nat
  cycles : Nat
  program : List Char
  storage : PyVal
  init_data : List Nat
  storage_ptr : Option Nat
deriving Repr, DecidableEq

/-- The attribute state right after `__init__(stack_length)`. -/
def initState (stack_length : Nat) : BfiState :=
  { stack_length := stack_length
    stack := List.replicate stack_length (.intV 0)
    stack_ptr := 0
    inst_stack := []
    inst_ptr := 0
    cycles := 0
    program := []
    storage := .intV 0
    init_data := []
    storage_ptr := none }

/-- The command characters of each dialect level, i.e. the keys of
`command_map` after `__init__` of the class selected by the level. -/
def commandChars (lvl : Nat) : List Char :=
  if lvl = 0 then
    ['+', '-', '>', '<', '.', ',', '[', ']']
  else if lvl = 1 then
    ['+', '-', '>', '<', '.', ',', '[', ']',
     '@', '$', '!', '}', '{', '~', '^', '&', '|']
  else if lvl = 2 then
    ['+', '-', '>', '<', '.', ',', '[', ']',
     '@', '$', '!', '}', '{', '~', '^', '&', '|',
     '?', ')', '(', '*', '/', '=', '_', '%']
  else
    ['+', '-', '>', '<', '.', ',', '[', ']',
     '@', '$', '!', '}', '{', '~', '^', '&', '|',
     '?', ')', '(', '*', '/', '=', '_', '%',
     'X', 'x', 'M', 'm', 'L', 'l', ':',
     '0', '1', '2', '3', '4', '5', '6', '7', '8', '9',
     'A', 'B', 'C', 'D', 'E', 'F', '#']

/-- Python list read `l[i]` for a non-negative index. -/
def pyListGet (l : List PyVal) (i : Nat) : Except PyError PyVal :=
  match l[i]? with
  | some v => .ok v
  | none => .error .indexError

/-- Python list assignment `l[i] = v` for a non-negative index. -/
def pyListSet (l : List PyVal) (i : Nat) (v : PyVal) : Except PyError (List PyVal) :=
  if i < l.length then .ok (l.set i v) else .error .indexError

/-- `self.stack[self.stack_ptr]`. -/
def getCell (s : BfiState) : Except PyError PyVal :=
  pyListGet s.stack s.stack_ptr

/-- Use a `PyVal` as an int operand; a string operand raises TypeError. -/
def asInt (v : PyVal) : Except PyError Nat :=
  match v with
  | .intV n => .ok n
  | .strV _ => .error .typeError

/-- `self.stack[self.stack_ptr]` used as an int operand. -/
def getIntCell (s : BfiState) : Except PyError Nat :=
  match getCell s with
  | .ok v => asInt v
  | .error e => .error e

/-- `self.stack[self.stack_ptr] = v`. -/
def setCellE (s : BfiState) (v : PyVal) : Except PyError BfiState :=
  match pyListSet s.stack s.stack_ptr v with
  | .ok st => .ok {s with stack := st}
  | .error e => .error e

/-- `Bfi.inc`: `self.stack[self.stack_ptr] = (self.stack[self.stack_ptr] + 1) % 256`. -/
def inc (s : BfiState) : Except PyError BfiState :=
  match getIntCell s with
  | .ok v => setCellE s (.intV ((v + 1) % 256))
  | .error e => .error e

/-- `Bfi.dec`: `self.stack[self.stack_ptr] = (self.stack[self.stack_ptr] - 1) % 256`. -/
def dec (s : BfiState) : Except PyError BfiState :=
  match getIntCell s with
  | .ok v => setCellE s (.intV ((((v : Int) - 1).emod 256).toNat))
  | .error e => .error e

/-- `Bfi.inc_ptr`: `self.stack_ptr = (self.stack_ptr + 1) % self.stack_length`.
Note the modulus is the construction-time `stack_length` attribute, not the
live tape length `len(self.stack)`. -/
def inc_ptr (s : BfiState) : Except PyError BfiState :=
  if s.stack_length = 0 then .error .zeroDivisionError
  else .ok {s with stack_ptr := (s.stack_ptr + 1) % s.stack_length}

/-- `Bfi.dec_ptr`: `self.stack_ptr = (self.stack_ptr - 1) % self.stack_length`. -/
def dec_ptr (s : BfiState) : Except PyError BfiState :=
  if s.stack_length = 0 then .error .zeroDivisionError
  else .ok {s with stack_ptr := (((s.stack_ptr : Int) - 1).emod (s.stack_length : Int)).toNat}

/-- `Bfi.open_brace`: `self.inst_stack.insert(0, self.inst_ptr)`. -/
def open_brace (s : BfiState) : Except PyError BfiState :=
  .ok {s with inst_stack := s.inst_ptr :: s.inst_stack}

/-- Python truth of `self.stack[self.stack_ptr] != 0`: a string cell
compares unequal to `0`. -/
def pyNeZero (v : PyVal) : Bool :=
  match v with
  | .intV n => n ≠ 0
  | .strV _ => true

/-- `Bfi.close_brace`: on a non-zero cell jump to `self.inst_stack[0]`,
otherwise `self.inst_stack.pop(0)`; both raise IndexError on an empty
instruction stack. -/
def close_brace (s : BfiState) : Except PyError BfiState :=
  match getCell s with
  | .error e => .error e
  | .ok v =>
    if pyNeZero v then
      match s.inst_stack with
      | [] => .error .indexError
      | top :: _ => .ok {s with inst_ptr := top}
    else
      match s.inst_stack with
      | [] => .error .indexError
      | _ :: rest => .ok {s with inst_stack := rest}

/-- `BfiT1.store_data` / `BfiT3.store_data`: at level 3 a set
`storage_ptr` redirects the write into the tape cell it points to. -/
def store_data (lvl : Nat) (s : BfiState) : Except PyError BfiState :=
  match getCell s with
  | .error e => .error e
  | .ok v =>
    if 3 ≤ lvl then
      match s.storage_ptr with
      | none => .ok {s with storage := v}
      | some p =>
        match pyListSet s.stack p v with
        | .ok st => .ok {s with stack := st}
        | .error e => .error e
    else
      .ok {s with storage := v}

/-- `BfiT3`'s effective register read:
`self.storage if self.storage_ptr is None else self.stack[self.storage_ptr]`. -/
def effStorage (s : BfiState) : Except PyError PyVal :=
  match s.storage_ptr with
  | none => .ok s.storage
  | some p => pyListGet s.stack p

/-- The register value each level's register-consuming arithmetic reads:
plain `self.storage` below level 3, the redirected read at level 3. -/
def effStorageLvl (lvl : Nat) (s : BfiState) : Except PyError PyVal :=
  if 3 ≤ lvl then effStorage s else .ok s.storage

/-- `BfiT1.load_data` / `BfiT3.load_data`:
`self.stack[self.stack_ptr] = storage`. -/
def load_data (lvl : Nat) (s : BfiState) : Except PyError BfiState :=
  match effStorageLvl lvl s with
  | .ok v => setCellE s v
  | .error e => .error e

/-- `BfiT1.right_shift`: `self.stack[self.stack_ptr] >>= 1`. -/
def right_shift (s : BfiState) : Except PyError BfiState :=
  match getIntCell s with
  | .ok v => setCellE s (.intV (v >>> 1))
  | .error e => .error e

/-- `BfiT1.left_shift`: `self.stack[self.stack_ptr] = (self.stack[self.stack_ptr] << 1) & 0xff`. -/
def left_shift (s : BfiState) : Except PyError BfiState :=
  match getIntCell s with
  | .ok v => setCellE s (.intV ((v <<< 1) &&& 255))
  | .error e => .error e

/-- `BfiT1.bitwise_not`: `self.stack[self.stack_ptr] = (~self.stack[self.stack_ptr] % 256)`,
with Python `~v = -v - 1`. -/
def bitwise_not (s : BfiState) : Except PyError BfiState :=
  match getIntCell s with
  | .ok v => setCellE s (.intV (((-(v : Int) - 1).emod 256).toNat))
  | .error e => .error e

/-- `BfiT1.bitwise_xor`: `(cell ^ self.storage) % 256`.  Not overridden in
`BfiT3`, so it always reads the plain `storage` attribute. -/
def bitwise_xor (s : BfiState) : Except PyError BfiState :=
  match getIntCell s with
  | .error e => .error e
  | .ok v =>
    match asInt s.storage with
    | .error e => .error e
    | .ok w => setCellE s (.intV ((v ^^^ w) % 256))

/-- `BfiT1.bitwise_and`: `(cell & self.storage) % 256`, plain `storage`. -/
def bitwise_and (s : BfiState) : Except PyError BfiState :=
  match getIntCell s with
  | .error e => .error e
  | .ok v =>
    match asInt s.storage with
    | .error e => .error e
    | .ok w => setCellE s (.intV ((v &&& w) % 256))

/-- `BfiT1.bitwise_or`: `(cell | self.storage) % 256`, plain `storage`. -/
def bitwise_or (s : BfiState) : Except PyError BfiState :=
  match getIntCell s with
  | .error e => .error e
  | .ok v =>
    match asInt s.storage with
    | .error e => .error e
    | .ok w => setCellE s (.intV ((v ||| w) % 256))

/-- `BfiT2.load_inst_ptr`:
`self.inst_ptr = (self.stack[self.stack_ptr] - 1) % len(self.program)`.
Reads the cell under the cursor (not the register); `% 0` on an empty
program raises ZeroDivisionError. -/
def load_inst_ptr (s : BfiState) : Except PyError BfiState :=
  match getIntCell s with
  | .error e => .error e
  | .ok v =>
    if s.program.length = 0 then .error .zeroDivisionError
    else .ok {s with inst_ptr := (((v : Int) - 1).emod (s.program.length : Int)).toNat}

/-- `BfiT2.insert_data_cell`: `self.stack.insert(self.stack_ptr, 0)`;
Python `list.insert` clamps the position to the end. -/
def insert_data_cell (s : BfiState) : Except PyError BfiState :=
  .ok {s with stack := s.stack.take s.stack_ptr ++ .intV 0 :: s.stack.drop s.stack_ptr}

/-- `BfiT2.remove_data_cell`: `self.stack.pop(self.stack_ptr)`. -/
def remove_data_cell (s : BfiState) : Except PyError BfiState :=
  if s.stack_ptr < s.stack.length then .ok {s with stack := s.stack.eraseIdx s.stack_ptr}
  else .error .indexError

/-- `BfiT2.mul` / `BfiT3.mul`: `(cell * storage) % 256` where `storage`
is the level's effective register read. -/
def mul (lvl : Nat) (s : BfiState) : Except PyError BfiState :=
  match effStorageLvl lvl s with
  | .error e => .error e
  | .ok w =>
    match getCell s with
    | .error e => .error e
    | .ok v =>
      match v, w with
      | .intV x, .intV y => setCellE s (.intV ((x * y) % 256))
      | _, _ => .error .typeError

/-- `BfiT2.div` / `BfiT3.div`: `int(cell / storage) % 256`; division by a
zero register raises ZeroDivisionError.  For the non-negative ints this
program produces, `int(cell / storage)` is truncating division. -/
def div (lvl : Nat) (s : BfiState) : Except PyError BfiState :=
  match effStorageLvl lvl s with
  | .error e => .error e
  | .ok w =>
    match getCell s with
    | .error e => .error e
    | .ok v =>
      match v, w with
      | .intV x, .intV y =>
        if y = 0 then .error .zeroDivisionError
        else setCellE s (.intV ((x / y) % 256))
      | _, _ => .error .typeError

/-- `BfiT2.add` / `BfiT3.add`: `(cell + storage) % 256`. -/
def add (lvl : Nat) (s : BfiState) : Except PyError BfiState :=
  match effStorageLvl lvl s with
  | .error e => .error e
  | .ok w =>
    match getCell s with
    | .error e => .error e
    | .ok v =>
      match v, w with
      | .intV x, .intV y => setCellE s (.intV ((x + y) % 256))
      | _, _ => .error .typeError

/-- `BfiT2.sub` / `BfiT3.sub`: `(cell - storage) % 256`, computed through
`Int` because the Python difference can be negative. -/
def sub (lvl : Nat) (s : BfiState) : Except PyError BfiState :=
  match effStorageLvl lvl s with
  | .error e => .error e
  | .ok w =>
    match getCell s with
    | .error e => .error e
    | .ok v =>
      match v, w with
      | .intV x, .intV y => setCellE s (.intV ((((x : Int) - (y : Int)).emod 256).toNat))
      | _, _ => .error .typeError

/-- `BfiT2.mod` / `BfiT3.mod`: `(cell % storage) % 256`; a zero register
raises ZeroDivisionError. -/
def mod (lvl : Nat) (s : BfiState) : Except PyError BfiState :=
  match effStorageLvl lvl s with
  | .error e => .error e
  | .ok w =>
    match getCell s with
    | .error e => .error e
    | .ok v =>
      match v, w with
      | .intV x, .intV y =>
        if y = 0 then .error .zeroDivisionError
        else setCellE s (.intV ((x % y) % 256))
      | _, _ => .error .typeError

/-- `BfiT3.cmd_M`: `self.storage_ptr = self.stack_ptr`. -/
def cmd_M (s : BfiState) : Except PyError BfiState :=
  .ok {s with storage_ptr := some s.stack_ptr}

/-- `BfiT3.cmd_m`: `self.storage_ptr = None`. -/
def cmd_m (s : BfiState) : Except PyError BfiState :=
  .ok {s with storage_ptr := none}

/-- `BfiT3.init_0` .. `init_F`: `self.stack[self.stack_ptr] = n * 16`. -/
def initN (n : Nat) (s : BfiState) : Except PyError BfiState :=
  setCellE s (.intV (n * 16))

/-- The nibble value of a `BfiT3` literal-initializer symbol. -/
def nibbleVal (c : Char) : Option Nat :=
  if c = '0' then some 0
  else if c = '1' then some 1
  else if c = '2' then some 2
  else if c = '3' then some 3
  else if c = '4' then some 4
  else if c = '5' then some 5
  else if c = '6' then some 6
  else if c = '7' then some 7
  else if c = '8' then some 8
  else if c = '9' then some 9
  else if c = 'A' then some 10
  else if c = 'B' then some 11
  else if c = 'C' then some 12
  else if c = 'D' then some 13
  else if c = 'E' then some 14
  else if c = 'F' then some 15
  else none

/-- Result of running one bound operation: a new state together with the
remaining input lines and the character codes it printed, or a process
exit (`sys.exit(0)` in `end_prog`), or an uncaught exception. -/
inductive OpRes where
  | ok (s : BfiState) (inp : List (List Char)) (out : List Nat)
  | exit0
  | err (e : PyError)
deriving Repr, DecidableEq

/-- Lift an I/O-free operation into `OpRes`. -/
def liftOp (r : Except PyError BfiState) (inp : List (List Char)) : OpRes :=
  match r with
  | .ok s => .ok s inp []
  | .error e => .err e

/-- `Bfi.put_char`: `print(chr(cell), end='')`.  A string cell makes
`chr` raise TypeError, a code point past the Unicode range ValueError. -/
def put_char (s : BfiState) (inp : List (List Char)) : OpRes :=
  match getCell s with
  | .error e => .err e
  | .ok (.strV _) => .err .typeError
  | .ok (.intV n) => if n < 1114112 then .ok s inp [n] else .err .valueError

/-- `Bfi.get_char`: `self.stack[self.stack_ptr] = input()[0]`.  One line
is consumed; its first character — the string itself, not its code — is
stored into the cell.  `input()` at end of input raises EOFError and
`[0]` of an empty line raises IndexError. -/
def get_char (s : BfiState) (inp : List (List Char)) : OpRes :=
  match inp with
  | [] => .err .eofError
  | line :: rest =>
    match line with
    | [] => .err .indexError
    | ch :: _ =>
      match setCellE s (.strV ch) with
      | .ok s2 => .ok s2 rest []
      | .error e => .err e

/-- Dispatch of one command symbol, the body of `command_map[c]()` for
the class of the given level.  Unmapped symbols are a no-op; the caller
(`step`) only invokes this behind the `c in self.command_map.keys()`
test, so the level's command set governs which branches are reachable. -/
def applyOp (lvl : Nat) (c : Char) (s : BfiState) (inp : List (List Char)) : OpRes :=
  if c = '+' then liftOp (inc s) inp
  else if c = '-' then liftOp (dec s) inp
  else if c = '>' then liftOp (inc_ptr s) inp
  else if c = '<' then liftOp (dec_ptr s) inp
  else if c = '.' then put_char s inp
  else if c = ',' then get_char s inp
  else if c = '[' then liftOp (open_brace s) inp
  else if c = ']' then liftOp (close_brace s) inp
  else if c = '@' then OpRes.exit0
  else if c = '$' then liftOp (store_data lvl s) inp
  else if c = '!' then liftOp (load_data lvl s) inp
  else if c = '}' then liftOp (right_shift s) inp
  else if c = '{' then liftOp (left_shift s) inp
  else if c = '~' then liftOp (bitwise_not s) inp
  else if c = '^' then liftOp (bitwise_xor s) inp
  else if c = '&' then liftOp (bitwise_and s) inp
  else if c = '|' then liftOp (bitwise_or s) inp
  else if c = '?' then liftOp (load_inst_ptr s) inp
  else if c = ')' then liftOp (insert_data_cell s) inp
  else if c = '(' then liftOp (remove_data_cell s) inp
  else if c = '*' then liftOp (mul lvl s) inp
  else if c = '/' then liftOp (div lvl s) inp
  else if c = '=' then liftOp (add lvl s) inp
  else if c = '_' then liftOp (sub lvl s) inp
  else if c = '%' then liftOp (mod lvl s) inp
  else if c = 'M' then liftOp (cmd_M s) inp
  else if c = 'm' then liftOp (cmd_m s) inp
  else
    match nibbleVal c with
    | some n => liftOp (initN n s) inp
    | none => .ok s inp []

/-- One observable step record: the instruction pointer and symbol
fetched, and the data state after the step (the control `inst_stack` is
internal loop bookkeeping, not part of the observable trace). -/
structure Snap where
  ip : Nat
  sym : Char
  stack : List PyVal
  stack_ptr : Nat
  storage : PyVal
  storage_ptr : Option Nat
  cycles : Nat
deriving Repr, DecidableEq

/-- An interpreter together with its pending input lines, emitted output
codes and observable trace. -/
structure Machine where
  st : BfiState
  inp : List (List Char)
  out : List Nat
  tr : List Snap
deriving Repr, DecidableEq

/-- `self.inst_ptr += 1; self.cycles += 1` at the end of `Bfi.step`. -/
def bump (s : BfiState) : BfiState :=
  {s with inst_ptr := s.inst_ptr + 1, cycles := s.cycles + 1}

/-- The trace record of a completed step. -/
def mkSnap (ip : Nat) (c : Char) (s : BfiState) : Snap :=
  ⟨ip, c, s.stack, s.stack_ptr, s.storage, s.storage_ptr, s.cycles⟩

/-- Result of `Bfi.step`. -/
inductive StepRes where
  | ok (m : Machine)
  | exit0 (m : Machine)
  | err (e : PyError) (m : Machine)
deriving Repr, DecidableEq

/-- `Bfi.step`: fetch `self.program[self.inst_ptr]`, run the bound
operation if the symbol is in `command_map`, then advance the pointer
and count the cycle.  An exception or `sys.exit` propagates before the
pointer/cycle update. -/
def step (lvl : Nat) (m : Machine) : StepRes :=
  match m.st.program[m.st.inst_ptr]? with
  | none => .err .indexError m
  | some c =>
    if (commandChars lvl).contains c then
      match applyOp lvl c m.st m.inp with
      | .ok s2 inp2 outc =>
        .ok ⟨bump s2, inp2, m.out ++ outc, m.tr ++ [mkSnap m.st.inst_ptr c (bump s2)]⟩
      | .exit0 => .exit0 m
      | .err e => .err e m
    else
      .ok ⟨bump m.st, m.inp, m.out, m.tr ++ [mkSnap m.st.inst_ptr c (bump m.st)]⟩

/-- Result of `Bfi.evaluate`: normal completion, process exit from
`end_prog`, an uncaught exception, or out of fuel (the Python loop has
no fuel; `fuelOut` marks runs longer than the given budget). -/
inductive RunRes where
  | done (m : Machine)
  | exit0 (m : Machine)
  | err (e : PyError) (m : Machine)
  | fuelOut (m : Machine)
deriving Repr, DecidableEq

/-- The `while self.inst_ptr < program_length: self.step()` loop of
`Bfi.evaluate`, with fuel. -/
def run (lvl : Nat) (fuel : Nat) (m : Machine) : RunRes :=
  match fuel with
  | 0 => if m.st.inst_ptr < m.st.program.length then .fuelOut m else .done m
  | fuel + 1 =>
    if m.st.inst_ptr < m.st.program.length then
      match step lvl m with
      | .ok m2 => run lvl fuel m2
      | .exit0 m2 => .exit0 m2
      | .err e m2 => .err e m2
    else .done m

/-- `Bfi.evaluate`: `self.inst_ptr = 0`, then the run loop. -/
def evaluate (lvl : Nat) (fuel : Nat) (m : Machine) : RunRes :=
  run lvl fuel {m with st := {m.st with inst_ptr := 0}}

/-- The brace-counting loop of `Bfi.load`: increment on `[`, decrement
on `]`, starting from the given accumulator. -/
def brace_count (p : List Char) (acc : Int) : Int :=
  match p with
  | [] => acc
  | c :: rest =>
    brace_count rest (if c = '[' then acc + 1 else if c = ']' then acc - 1 else acc)

/-- `Bfi.reset` (as run for levels 0 and 1): fresh zero tape of the
construction-time length, cursor, instruction pointer and cycle counter
zeroed.  It does not touch `inst_stack` or `storage`. -/
def resetBase (s : BfiState) : BfiState :=
  {s with stack := List.replicate s.stack_length (.intV 0)
          stack_ptr := 0
          inst_ptr := 0
          cycles := 0}

/-- The seeding loop of `BfiT2.reset`:
`for i, e in enumerate(self.initializer_data): self.stack[i] = e`. -/
def seedFrom (st : List PyVal) (i : Nat) (data : List Nat) : Except PyError (List PyVal) :=
  match data with
  | [] => .ok st
  | e :: rest =>
    match pyListSet st i (.intV e) with
    | .ok st2 => seedFrom st2 (i + 1) rest
    | .error er => .error er

/-- `reset` as dispatched for the class of the given level: the base
reset, plus the `BfiT2` initializer seeding at level 2+, plus the
`BfiT3` clearing of `storage_ptr` at level 3. -/
def resetLvl (lvl : Nat) (s : BfiState) : Except PyError BfiState :=
  if 2 ≤ lvl then
    match seedFrom (resetBase s).stack 0 s.init_data with
    | .error e => .error e
    | .ok st =>
      let s2 := {resetBase s with stack := st}
      .ok (if 3 ≤ lvl then {s2 with storage_ptr := none} else s2)
  else .ok (resetBase s)

/-- `Bfi.load`: optional brace validation (ValueError on a non-zero
final count), filter the text down to the level's command symbols, then
`self.reset()` (dispatched to the level's reset). -/
def loadBase (lvl : Nat) (s : BfiState) (program : List Char) (validate : Bool) :
    Except PyError BfiState :=
  if validate ∧ brace_count program 0 ≠ 0 then .error .valueError
  else resetLvl lvl {s with program := program.filter (fun b => (commandChars lvl).contains b)}

/-- Python `str.split(sep)` on a list of characters. -/
def pySplit (l : List Char) (sep : Char) : List (List Char) :=
  match l with
  | [] => [[]]
  | c :: rest =>
    if c = sep then [] :: pySplit rest sep
    else
      match pySplit rest sep with
      | [] => [[c]]
      | p :: ps => (c :: p) :: ps

/-- Python `sep.join(parts)` on lists of characters. -/
def pyJoin (sep : Char) (parts : List (List Char)) : List Char :=
  match parts with
  | [] => []
  | [x] => x
  | x :: xs => x ++ sep :: pyJoin sep xs

/-- The split at the top of `BfiT2.load`: `parts = program.split('@')`;
with more than one part the code body is `'@'.join(parts[0:-1])` and the
initializer text is `parts[-1]`, otherwise the body is the whole text
and the initializer text is empty. -/
def bfiT2Split (src : List Char) : List Char × List Char :=
  let parts := pySplit src '@'
  if 1 < parts.length then (pyJoin '@' parts.dropLast, parts.getLastD [])
  else (parts.headD [], [])

/-- `load` as dispatched for the class of the given level: `Bfi.load`
below level 2; at level 2+ `BfiT2.load` splits off the initializer
text, loads the body through `Bfi.load` (which resets with the previous
initializer data), stores the new `initializer_data` as the `ord`s of
the initializer text, then resets again. -/
def loadProgram (lvl : Nat) (s : BfiState) (src : List Char) : Except PyError BfiState :=
  if 2 ≤ lvl then
    match bfiT2Split src with
    | (body, payload) =>
      match loadBase lvl s body true with
      | .error e => .error e
      | .ok s1 => resetLvl lvl {s1 with init_data := payload.map Char.toNat}
  else loadBase lvl s src true

/-- Load a source into a fresh interpreter of the given level and
capacity, run it on the given input, and return the final attribute
state of a normally completed run. -/
def runToState (lvl L fuel : Nat) (src : List Char) (inp : List (List Char)) :
    Option BfiState :=
  match loadProgram lvl (initState L) src with
  | .error _ => none
  | .ok s =>
    match evaluate lvl fuel ⟨s, inp, [], []⟩ with
    | .done m => some m.st
    | _ => none

/-- Load and run the same source twice on the same interpreter instance
(the second load sees the attribute state the first run left behind) and
return the two observable traces. -/
def roundTripTraces (lvl L fuel : Nat) (src : List Char) (inp : List (List Char)) :
    Option (List Snap × List Snap) :=
  match loadProgram lvl (initState L) src with
  | .error _ => none
  | .ok s1 =>
    match evaluate lvl fuel ⟨s1, inp, [], []⟩ with
    | .done m1 =>
      match loadProgram lvl m1.st src with
      | .error _ => none
      | .ok s2 =>
        match evaluate lvl fuel ⟨s2, inp, [], []⟩ with
        | .done m2 => some (m1.tr, m2.tr)
        | _ => none
    | _ => none

/-- A `PyVal` is a byte value: an int in `[0, 255]`.  The string stored
by `get_char` is not one. -/
def valInByte (v : PyVal) : Bool :=
  match v with
  | .intV n => n ≤ 255
  | .strV _ => false

/-- Standard bracket balance: the running open/close count never drops
below zero and ends at zero. -/
def balancedFrom (acc : Int) (p : List Char) : Bool :=
  match p with
  | [] => acc = 0
  | c :: rest =>
    let acc2 := if c = '[' then acc + 1 else if c = ']' then acc - 1 else acc
    if acc2 < 0 then false else balancedFrom acc2 rest

/-- `k`-fold cursor advance, the iterated `Bfi.inc_ptr`. -/
def incPtrIter (k : Nat) (s : BfiState) : Except PyError BfiState :=
  match k with
  | 0 => .ok s
  | k + 1 =>
    match inc_ptr s with
    | .ok s2 => incPtrIter k s2
    | .error e => .error e

theorem brace_count_eq (p : List Char) : ∀ acc : Int,
    brace_count p acc = acc + (p.count '[' : Int) - (p.count ']' : Int) := by
  induction p with
  | nil => intro acc; simp [brace_count]
  | cons c rest ih =>
    intro acc
    by_cases h1 : c = '['
    · subst h1
      simp [brace_count, ih, List.count_cons]
      omega
    · by_cases h2 : c = ']'
      · subst h2
        simp [brace_count, h1, ih, List.count_cons]
        omega
      · simp [brace_count, h1, h2, ih, List.count_cons, Ne.symm h1, Ne.symm h2]

/-- Claim C1, counterexample.  The claim says load-time validation fails
on every unbalanced source, in particular on the source consisting of a
close bracket followed by an open bracket.  That source is not balanced
(the running count goes negative), yet `Bfi.load` at level 0 accepts it:
the code only tests the final count, which is zero. -/
theorem C1_cex :
    balancedFrom 0 [']', '['] = false ∧
    loadProgram 0 (initState 2) [']', '['] = .ok {initState 2 with program := [']', '[']} := by
  constructor
  · rfl
  · decide

/-- Claim C1, amended: load-time validation (at the base-interpreter
levels 0 and 1 whose `load` is `Bfi.load`) succeeds exactly when the
total number of open brackets equals the total number of close brackets
— only the final running count is tested, not its intermediate values,
so sources such as a close bracket before an open bracket pass. -/
theorem C1_amended (lvl L : Nat) (hl : lvl ≤ 1) (src : List Char) :
    (∃ t, loadProgram lvl (initState L) src = .ok t) ↔
      src.count '[' = src.count ']' := by
  have h2 : ¬ 2 ≤ lvl := by omega
  constructor
  · rintro ⟨t, ht⟩
    by_contra hne
    have hz : brace_count src 0 ≠ 0 := by
      rw [brace_count_eq]
      omega
    simp [loadProgram, h2, loadBase, hz] at ht
  · intro hc
    have hz : brace_count src 0 = 0 := by
      rw [brace_count_eq]
      omega
    refine ⟨resetBase {initState L with
      program := src.filter (fun b => (commandChars lvl).contains b)}, ?_⟩
    simp [loadProgram, h2, loadBase, hz, resetLvl]

/-- Claim C1, amended-claim witness at a concrete input. -/
theorem C1_amended_witness :
    (0 : Nat) ≤ 1 ∧
    ((∃ t, loadProgram 0 (initState 1) [']', '['] = .ok t) ↔
      List.count '[' [']', '['] = List.count ']' [']', '[']) :=
  ⟨by decide, C1_amended 0 1 (by decide) [']', '[']⟩

/-- Claim C2.  Executing the halt symbol at level 1 does not set any
halted flag observed by the run loop: `BfiT1.end_prog` calls
`sys.exit(0)`, so the run of the one-symbol halt program ends in the
process-exit outcome, `evaluate` never returns, and no cycle count is
handed back to the caller (the machine still holds the pre-step state,
cycle counter 0). -/
theorem C2_halt_exits_process :
    (loadProgram 1 (initState 4) ['@']).map (fun s => evaluate 1 4 ⟨s, [], [], []⟩) =
      .ok (.exit0 ⟨{initState 4 with program := ['@']}, [], [], []⟩) := by
  decide

/-- Claim C3, counterexample.  Level-2 run of cursor-advance,
insert-at-cursor, cursor-advance on a capacity-2 interpreter: after the
insert the live tape length is 3, and the second advance from position 1
lands on `(1 + 1) % 2 = 0`, not `(1 + 1) % 3 = 2` as the claim's
current-length modulus predicts. -/
theorem C3_cex :
    (runToState 2 2 9 ['>', ')', '>'] []).map (fun s => (s.stack_ptr, s.stack.length)) =
      some (0, 3) ∧ (1 + 1) % 3 = 2 ∧ ¬ ((0 : Nat) = 2) := by
  decide

/-- Claim C3, amended: cursor advance wraps modulo the construction-time
capacity `stack_length`, which insert/remove never update — advancing
`k` times from position `p` yields `(p + k) % stack_length` regardless
of the current live tape length. -/
theorem C3_amended (k : Nat) (s : BfiState) (hL : s.stack_length ≠ 0)
    (hp : s.stack_ptr < s.stack_length) :
    incPtrIter k s = .ok {s with stack_ptr := (s.stack_ptr + k) % s.stack_length} := by
  induction k generalizing s with
  | zero =>
    simp [incPtrIter, Nat.mod_eq_of_lt hp]
  | succ k ih =>
    have hlt : (s.stack_ptr + 1) % s.stack_length < s.stack_length :=
      Nat.mod_lt _ (Nat.pos_of_ne_zero hL)
    have step1 : inc_ptr s = .ok {s with stack_ptr := (s.stack_ptr + 1) % s.stack_length} := by
      simp [inc_ptr, hL]
    have := ih {s with stack_ptr := (s.stack_ptr + 1) % s.stack_length} hL hlt
    simp only [incPtrIter, step1, this]
    have harith : ((s.stack_ptr + 1) % s.stack_length + k) % s.stack_length =
        (s.stack_ptr + (k + 1)) % s.stack_length := by
      rw [Nat.mod_add_mod]
      congr 1
      omega
    rw [harith]

/-- Claim C3, amended-claim witness at a concrete state. -/
theorem C3_amended_witness :
    (initState 2).stack_length ≠ 0 ∧ (initState 2).stack_ptr < (initState 2).stack_length ∧
    incPtrIter 3 (initState 2) =
      .ok {initState 2 with stack_ptr := ((initState 2).stack_ptr + 3) % (initState 2).stack_length} :=
  ⟨by decide, by decide, C3_amended 3 (initState 2) (by decide) (by decide)⟩

/-- The concrete level-2 state for the claim-C4 counterexample: cell
under the cursor holds 1, the register holds 5, three loaded symbols. -/
def c4state : BfiState :=
  {initState 1 with stack := [.intV 1], storage := .intV 5, program := ['?', '?', '?']}

/-- Claim C4, counterexample.  The jump operation sets the instruction
pointer from the cell under the cursor, not from the register: with
register 5 and cell 1 over a 3-symbol program the claim predicts
`(5 - 1) % 3 = 1`, but the code computes `(1 - 1) % 3 = 0`. -/
theorem C4_cex :
    applyOp 2 '?' c4state [] = .ok {c4state with inst_ptr := 0} [] [] ∧
    ((5 - 1 : Int).emod 3).toNat = 1 ∧ ¬ ((0 : Nat) = 1) := by
  decide

/-- Claim C4, amended: for a non-empty loaded sequence, the jump
operation sets the instruction pointer to (current cell value minus one)
modulo the sequence length; the scratch register is not consulted
(`load_inst_ptr` is shared unchanged by levels 2 and 3). -/
theorem C4_amended (s : BfiState) (v : Nat) (inp : List (List Char))
    (hcell : s.stack[s.stack_ptr]? = some (.intV v)) (hne : s.program ≠ []) :
    applyOp 2 '?' s inp =
      .ok {s with inst_ptr := (((v : Int) - 1).emod (s.program.length : Int)).toNat} inp [] ∧
    applyOp 3 '?' s inp =
      .ok {s with inst_ptr := (((v : Int) - 1).emod (s.program.length : Int)).toNat} inp [] := by
  have hlen : ¬ s.program.length = 0 := by
    simpa [List.length_eq_zero] using hne
  constructor <;>
    simp [applyOp, liftOp, load_inst_ptr, getIntCell, getCell, pyListGet, hcell, asInt, hlen]

/-- Claim C4, amended-claim witness at a concrete state. -/
theorem C4_amended_witness :
    c4state.stack[c4state.stack_ptr]? = some (.intV 1) ∧ c4state.program ≠ [] ∧
    applyOp 2 '?' c4state [] =
      .ok {c4state with inst_ptr := (((1 : Int) - 1).emod (c4state.program.length : Int)).toNat} [] [] :=
  ⟨by decide, by decide, (C4_amended c4state 1 [] (by decide) (by decide)).1⟩

/-- Claim C5.  The input operation reads one line and stores its first
character — the Python string itself, not a byte value — into the cell:
running the one-symbol input program on the line consisting of the
letter A leaves the cell holding that string, which is not a value in
[0, 255].  (All other operations do keep cells and register in range;
the input operation is the violation.) -/
theorem C5_input_breaks_byte_range :
    (runToState 0 2 4 [','] [['A']]).map (fun s => s.stack) =
      some [.strV 'A', .intV 0] ∧ valInByte (.strV 'A') = false := by
  decide

/-- The concrete level-3 state for the claim-C6 counterexample: the
redirection points the register at cell 1 (value 7), the plain
accumulator holds 5, the cursor is on cell 0 (value 3). -/
def c6state : BfiState :=
  {initState 2 with stack := [.intV 3, .intV 7], storage := .intV 5, storage_ptr := some 1}

/-- Claim C6, counterexample.  With redirection active, the bitwise-XOR
operation still reads the plain accumulator: the cell becomes
`(3 xor 5) % 256 = 6`, not `(3 xor 7) % 256 = 4` as reading through the
redirected cell would give (`BfiT3` never overrides `bitwise_xor`,
`bitwise_and`, `bitwise_or`). -/
theorem C6_cex :
    applyOp 3 '^' c6state [] = .ok {c6state with stack := [.intV 6, .intV 7]} [] [] ∧
    (3 ^^^ 5) % 256 = 6 ∧ (3 ^^^ 7) % 256 = 4 ∧ ¬ ((6 : Nat) = 4) := by
  decide

/-- Claim C8, counterexample.  The level-0 run of increment, open-loop,
decrement, close-loop terminates with the cell at 0 but after exactly 4
cycles — every executed symbol counts one cycle — not the 2 cycles the
claim states. -/
theorem C8_cex :
    (runToState 0 1 9 ['+', '[', '-', ']'] []).map (fun s => (s.cycles, s.stack)) =
      some (4, [.intV 0]) ∧ ¬ ((4 : Nat) = 2) := by
  decide

/-- Claim C6, amended: with redirection active, the seven operations the
level-3 class overrides — store, load, multiply, divide, add, subtract,
modulo — read and write through the tape cell the register points to
(the plain accumulator `storage` is untouched and unread); the bitwise
XOR/AND/OR operations are not overridden and keep using the plain
accumulator. -/
theorem C6_amended (s : BfiState) (q x y : Nat)
    (hr : s.storage_ptr = some q)
    (hq : s.stack[q]? = some (.intV y))
    (hx : s.stack[s.stack_ptr]? = some (.intV x))
    (hy : y ≠ 0) :
    store_data 3 s = .ok {s with stack := s.stack.set q (.intV x)} ∧
    load_data 3 s = .ok {s with stack := s.stack.set s.stack_ptr (.intV y)} ∧
    mul 3 s = .ok {s with stack := s.stack.set s.stack_ptr (.intV ((x * y) % 256))} ∧
    div 3 s = .ok {s with stack := s.stack.set s.stack_ptr (.intV ((x / y) % 256))} ∧
    add 3 s = .ok {s with stack := s.stack.set s.stack_ptr (.intV ((x + y) % 256))} ∧
    sub 3 s = .ok {s with stack := s.stack.set s.stack_ptr (.intV ((((x : Int) - (y : Int)).emod 256).toNat))} ∧
    mod 3 s = .ok {s with stack := s.stack.set s.stack_ptr (.intV ((x % y) % 256))} := by
  obtain ⟨hqlt, -⟩ := List.getElem?_eq_some.mp hq
  obtain ⟨hplt, -⟩ := List.getElem?_eq_some.mp hx
  refine ⟨?_, ?_, ?_, ?_, ?_, ?_, ?_⟩ <;>
    simp [store_data, load_data, mul, div, add, sub, mod, effStorageLvl, effStorage,
      hr, pyListGet, hq, hx, getCell, setCellE, pyListSet, hplt, hqlt, asInt, hy]

/-- Claim C6, amended-claim witness at a concrete state. -/
theorem C6_amended_witness :
    c6state.storage_ptr = some 1 ∧ c6state.stack[1]? = some (.intV 7) ∧
    c6state.stack[c6state.stack_ptr]? = some (.intV 3) ∧ (7 : Nat) ≠ 0 ∧
    store_data 3 c6state = .ok {c6state with stack := c6state.stack.set 1 (.intV 3)} ∧
    load_data 3 c6state = .ok {c6state with stack := c6state.stack.set c6state.stack_ptr (.intV 7)} :=
  ⟨by decide, by decide, by decide, by decide,
    (C6_amended c6state 1 3 7 (by decide) (by decide) (by decide) (by decide)).1,
    (C6_amended c6state 1 3 7 (by decide) (by decide) (by decide) (by decide)).2.1⟩

/-- The level-0 state right after loading the claim-C8 program into a
fresh interpreter of capacity `L2 + 1`. -/
def c8loaded (L2 : Nat) : BfiState :=
  { stack_length := L2 + 1
    stack := List.replicate (L2 + 1) (.intV 0)
    stack_ptr := 0
    inst_stack := []
    inst_ptr := 0
    cycles := 0
    program := ['+', '[', '-', ']']
    storage := .intV 0
    init_data := []
    storage_ptr := none }

/-- The final machine of the claim-C8 run on capacity `L2 + 1`. -/
def c8final (L2 : Nat) : Machine :=
  ⟨{ stack_length := L2 + 1
     stack := .intV 0 :: List.replicate L2 (.intV 0)
     stack_ptr := 0
     inst_stack := []
     inst_ptr := 4
     cycles := 4
     program := ['+', '[', '-', ']']
     storage := .intV 0
     init_data := []
     storage_ptr := none }, [], [],
   [⟨0, '+', .intV 1 :: List.replicate L2 (.intV 0), 0, .intV 0, none, 1⟩,
    ⟨1, '[', .intV 1 :: List.replicate L2 (.intV 0), 0, .intV 0, none, 2⟩,
    ⟨2, '-', .intV 0 :: List.replicate L2 (.intV 0), 0, .intV 0, none, 3⟩,
    ⟨3, ']', .intV 0 :: List.replicate L2 (.intV 0), 0, .intV 0, none, 4⟩]⟩

/-- Claim C8, amended: on a level-0 interpreter with tape capacity at
least 1, the loaded program increment, open-loop, decrement, close-loop
terminates after exactly 4 cycles (one per executed symbol: increment,
loop entry, decrement, loop exit), leaving the cell under the cursor at
0. -/
theorem C8_amended (L : Nat) (hL : 1 ≤ L) (s1 : BfiState)
    (h : loadProgram 0 (initState L) ['+', '[', '-', ']'] = .ok s1) :
    ∃ m, evaluate 0 9 ⟨s1, [], [], []⟩ = .done m ∧
      m.st.cycles = 4 ∧ m.st.stack[0]? = some (.intV 0) := by
  obtain ⟨L2, rfl⟩ : ∃ L2, L = L2 + 1 := ⟨L - 1, by omega⟩
  have h0 : loadProgram 0 (initState (L2 + 1)) ['+', '[', '-', ']'] = .ok (c8loaded L2) := rfl
  rw [h0] at h
  injection h with h
  subst h
  refine ⟨c8final L2, ?_, rfl, by simp [c8final]⟩
  simp [evaluate, run, step, applyOp, liftOp, inc, dec, close_brace, open_brace,
    getIntCell, getCell, pyListGet, setCellE, pyListSet, asInt, pyNeZero, bump, mkSnap,
    c8loaded, c8final, commandChars, List.replicate_succ,
    show Int.emod 0 256 = 0 by decide, Int.toNat_zero]

/-- Claim C8, amended-claim witness at capacity 1. -/
theorem C8_amended_witness :
    (1 : Nat) ≤ 1 ∧ loadProgram 0 (initState 1) ['+', '[', '-', ']'] = .ok (c8loaded 0) ∧
    ∃ m, evaluate 0 9 ⟨c8loaded 0, [], [], []⟩ = .done m ∧
      m.st.cycles = 4 ∧ m.st.stack[0]? = some (.intV 0) :=
  ⟨by decide, by decide, C8_amended 1 (by decide) (c8loaded 0) (by decide)⟩

theorem applyOp_div (lvl : Nat) (s : BfiState) (inp : List (List Char)) :
    applyOp lvl '/' s inp = liftOp (div lvl s) inp := rfl

theorem applyOp_mod (lvl : Nat) (s : BfiState) (inp : List (List Char)) :
    applyOp lvl '%' s inp = liftOp (mod lvl s) inp := rfl

theorem cc2_div : (commandChars 2).contains '/' = true := rfl

theorem cc2_mod : (commandChars 2).contains '%' = true := rfl

theorem cc3_div : (commandChars 3).contains '/' = true := rfl

theorem cc3_mod : (commandChars 3).contains '%' = true := rfl

theorem seedFrom_ok (data : List Nat) : ∀ (st : List PyVal) (i : Nat),
    i + data.length ≤ st.length →
    ∃ st2, seedFrom st i data = .ok st2 ∧ st2.length = st.length := by
  induction data with
  | nil => intro st i _; exact ⟨st, rfl, rfl⟩
  | cons e rest ih =>
    intro st i h
    have hi : i < st.length := by simp at h; omega
    obtain ⟨st2, h1, h2⟩ := ih (st.set i (.intV e)) (i + 1) (by simp at h ⊢; omega)
    exact ⟨st2, by simp [seedFrom, pyListSet, hi, h1], by simp at h2; exact h2⟩

theorem loadT2_eq (lvl L : Nat) (hlvl : lvl = 2 ∨ lvl = 3) (src : List Char)
    (hb : brace_count (bfiT2Split src).1 0 = 0) (st2 : List PyVal)
    (hseed : seedFrom (List.replicate L (.intV 0)) 0 ((bfiT2Split src).2.map Char.toNat) = .ok st2) :
    loadProgram lvl (initState L) src =
      .ok { stack_length := L, stack := st2, stack_ptr := 0, inst_stack := [],
            inst_ptr := 0, cycles := 0,
            program := (bfiT2Split src).1.filter (fun c => (commandChars lvl).contains c),
            storage := .intV 0,
            init_data := (bfiT2Split src).2.map Char.toNat,
            storage_ptr := none } := by
  rcases hlvl with rfl | rfl <;>
    simp [loadProgram, loadBase, hb, resetLvl, resetBase, initState, seedFrom, hseed]

/-- Claim C9.  For the level-2/3 dialects: any source whose code body
passes brace validation (with an initializer payload that fits the tape)
loads without error — there is no load-time division check — and a step
whose symbol is divide or modulo while the effective register (the
redirected one at level 3) is zero makes the run stop at exactly that
step with a ZeroDivisionError (the FatalError of the spec taxonomy):
the returned machine is untouched, no further steps are issued, the
cycle counter is not advanced. -/
theorem C9_div_mod_zero (lvl : Nat) (hlvl : lvl = 2 ∨ lvl = 3) :
    (∀ (L : Nat) (src : List Char),
      brace_count (bfiT2Split src).1 0 = 0 → (bfiT2Split src).2.length ≤ L →
      ∃ t, loadProgram lvl (initState L) src = .ok t) ∧
    (∀ (m : Machine) (fuel x : Nat),
      (m.st.program[m.st.inst_ptr]? = some '/' ∨ m.st.program[m.st.inst_ptr]? = some '%') →
      effStorageLvl lvl m.st = .ok (.intV 0) →
      m.st.stack[m.st.stack_ptr]? = some (.intV x) →
      run lvl (fuel + 1) m = .err .zeroDivisionError m) := by
  constructor
  · intro L src hb hp
    obtain ⟨st2, hseed, -⟩ :=
      seedFrom_ok ((bfiT2Split src).2.map Char.toNat) (List.replicate L (.intV 0)) 0
        (by simpa using hp)
    exact ⟨_, loadT2_eq lvl L hlvl src hb st2 hseed⟩
  · intro m fuel x hsym hsto hcell
    have hip : m.st.inst_ptr < m.st.program.length := by
      rcases hsym with h | h <;> exact (List.getElem?_eq_some.mp h).1
    rcases hlvl with rfl | rfl <;> rcases hsym with h | h <;>
      simp [run, hip, step, h, commandChars, applyOp_div, applyOp_mod,
        liftOp, div, mod, hsto, getCell, pyListGet, hcell]

/-- The machine one step into the level-2 run of the claim-C9 witness
program: increment then divide, with the register still 0. -/
def c9mach : Machine :=
  ⟨{ stack_length := 4
     stack := [.intV 1, .intV 0, .intV 0, .intV 0]
     stack_ptr := 0
     inst_stack := []
     inst_ptr := 1
     cycles := 1
     program := ['+', '/']
     storage := .intV 0
     init_data := []
     storage_ptr := none }, [], [], []⟩

/-- Claim C9, witness at a concrete program and state. -/
theorem C9_witness :
    (∃ t, loadProgram 2 (initState 4) ['+', '/'] = .ok t) ∧
    run 2 3 c9mach = .err .zeroDivisionError c9mach :=
  ⟨(C9_div_mod_zero 2 (Or.inl rfl)).1 4 ['+', '/'] (by decide) (by decide),
   (C9_div_mod_zero 2 (Or.inl rfl)).2 c9mach 2 1 (Or.inl (by decide)) (by decide) (by decide)⟩

theorem pySplit_ne_nil (l : List Char) (sep : Char) : pySplit l sep ≠ [] := by
  cases l with
  | nil => simp [pySplit]
  | cons c rest =>
    simp only [pySplit]
    split
    · simp
    · cases h : pySplit rest sep <;> simp

theorem pySplit_no_sep (l : List Char) (sep : Char) (h : ¬ sep ∈ l) :
    pySplit l sep = [l] := by
  induction l with
  | nil => rfl
  | cons c rest ih =>
    have hc : ¬ c = sep := fun hh => h (by simp [hh])
    have hr : ¬ sep ∈ rest := fun hh => h (by simp [hh])
    simp [pySplit, hc, ih hr]

theorem pySplit_append (a b : List Char) (sep : Char) (h : ¬ sep ∈ b) :
    pySplit (a ++ sep :: b) sep = pySplit a sep ++ [b] := by
  induction a with
  | nil => simp [pySplit, pySplit_no_sep b sep h]
  | cons c a2 ih =>
    by_cases hc : c = sep
    · subst hc
      simp [pySplit, ih]
    · cases hsp : pySplit a2 sep with
      | nil => exact absurd hsp (pySplit_ne_nil a2 sep)
      | cons p ps =>
        rw [hsp] at ih
        simp [pySplit, hc, ih, hsp]

theorem pyJoin_pySplit (l : List Char) (sep : Char) :
    pyJoin sep (pySplit l sep) = l := by
  induction l with
  | nil => rfl
  | cons c rest ih =>
    by_cases hc : c = sep
    · cases hsp : pySplit rest sep with
      | nil => exact absurd hsp (pySplit_ne_nil rest sep)
      | cons p ps =>
        rw [hsp] at ih
        simp [pySplit, hc, pyJoin, ih, hsp]
    · cases hsp : pySplit rest sep with
      | nil => exact absurd hsp (pySplit_ne_nil rest sep)
      | cons p ps =>
        rw [hsp] at ih
        cases ps with
        | nil =>
          simp [pyJoin] at ih
          simp [pySplit, hc, hsp, pyJoin, ih]
        | cons q qs =>
          simp [pySplit, hc, hsp, pyJoin] at ih ⊢
          simp [ih]

/-- Claim C10.  `BfiT2.load` splits on the last `@`: with no `@` the
whole text is the body and the payload is empty; otherwise everything
after the last `@` is the payload, that `@` itself is removed from the
body (so a trailing `@` meant as halt is consumed as the delimiter,
leaving an empty payload, and is never part of the executable
sequence), and loading stores the payload character codes as the
initializer data while the body is filtered to the level's commands. -/
theorem C10_initializer_split (L : Nat) :
    (∀ src : List Char, ¬ '@' ∈ src → bfiT2Split src = (src, [])) ∧
    (∀ a b : List Char, ¬ '@' ∈ b → bfiT2Split (a ++ '@' :: b) = (a, b)) ∧
    (∀ a b : List Char, ¬ '@' ∈ b → brace_count a 0 = 0 → b.length ≤ L →
      ∃ t, loadProgram 2 (initState L) (a ++ '@' :: b) = .ok t ∧
        t.program = a.filter (fun c => (commandChars 2).contains c) ∧
        t.init_data = b.map Char.toNat) := by
  have hsplit : ∀ a b : List Char, ¬ '@' ∈ b → bfiT2Split (a ++ '@' :: b) = (a, b) := by
    intro a b h
    have hne := pySplit_ne_nil a '@'
    have hlen1 : 1 < (pySplit a '@' ++ [b]).length := by
      have := List.length_pos.mpr hne
      simp
      omega
    simp [bfiT2Split, pySplit_append a b '@' h, hlen1, List.dropLast_concat,
      List.getLastD_concat, pyJoin_pySplit]
    intro hcon
    exact absurd hcon hne
  refine ⟨?_, hsplit, ?_⟩
  · intro src h
    simp [bfiT2Split, pySplit_no_sep src '@' h]
  · intro a b hb hbal hlen
    have hsp := hsplit a b hb
    obtain ⟨st2, hseed, -⟩ :=
      seedFrom_ok ((bfiT2Split (a ++ '@' :: b)).2.map Char.toNat)
        (List.replicate L (.intV 0)) 0 (by simp [hsp]; simpa using hlen)
    refine ⟨_, loadT2_eq 2 L (Or.inl rfl) _ (by simp [hsp, hbal]) st2 hseed, ?_, ?_⟩ <;>
      simp [hsp]

/-- Claim C10, witness at concrete sources. -/
theorem C10_witness :
    bfiT2Split ['+', '+'] = (['+', '+'], []) ∧
    bfiT2Split ['+', '@', 'A'] = (['+'], ['A']) ∧
    ∃ t, loadProgram 2 (initState 2) ['+', '@', 'A'] = .ok t ∧
      t.program = List.filter (fun c => (commandChars 2).contains c) ['+'] ∧
      t.init_data = List.map Char.toNat ['A'] :=
  ⟨(C10_initializer_split 2).1 ['+', '+'] (by decide),
   (C10_initializer_split 2).2.1 ['+'] ['A'] (by decide),
   (C10_initializer_split 2).2.2 ['+'] ['A'] (by decide) (by decide) (by decide)⟩

/-- A state with extra residual entries appended at the bottom of the
control-flow stack (residue a previous run left behind, since `reset`
never clears `inst_stack`). -/
def sWithIS (s : BfiState) (R : List Nat) : BfiState :=
  {s with inst_stack := s.inst_stack ++ R}

/-- A machine with residual control-flow-stack entries. -/
def mWithIS (m : Machine) (R : List Nat) : Machine :=
  {m with st := sWithIS m.st R}

@[simp] theorem sWithIS_stack_length (s : BfiState) (R : List Nat) :
    (sWithIS s R).stack_length = s.stack_length := rfl

@[simp] theorem sWithIS_stack (s : BfiState) (R : List Nat) :
    (sWithIS s R).stack = s.stack := rfl

@[simp] theorem sWithIS_stack_ptr (s : BfiState) (R : List Nat) :
    (sWithIS s R).stack_ptr = s.stack_ptr := rfl

@[simp] theorem sWithIS_inst_stack (s : BfiState) (R : List Nat) :
    (sWithIS s R).inst_stack = s.inst_stack ++ R := rfl

@[simp] theorem sWithIS_inst_ptr (s : BfiState) (R : List Nat) :
    (sWithIS s R).inst_ptr = s.inst_ptr := rfl

@[simp] theorem sWithIS_cycles (s : BfiState) (R : List Nat) :
    (sWithIS s R).cycles = s.cycles := rfl

@[simp] theorem sWithIS_program (s : BfiState) (R : List Nat) :
    (sWithIS s R).program = s.program := rfl

@[simp] theorem sWithIS_storage (s : BfiState) (R : List Nat) :
    (sWithIS s R).storage = s.storage := rfl

@[simp] theorem sWithIS_init_data (s : BfiState) (R : List Nat) :
    (sWithIS s R).init_data = s.init_data := rfl

@[simp] theorem sWithIS_storage_ptr (s : BfiState) (R : List Nat) :
    (sWithIS s R).storage_ptr = s.storage_ptr := rfl

@[simp] theorem mWithIS_st (m : Machine) (R : List Nat) :
    (mWithIS m R).st = sWithIS m.st R := rfl

@[simp] theorem mWithIS_inp (m : Machine) (R : List Nat) :
    (mWithIS m R).inp = m.inp := rfl

@[simp] theorem mWithIS_out (m : Machine) (R : List Nat) :
    (mWithIS m R).out = m.out := rfl

@[simp] theorem mWithIS_tr (m : Machine) (R : List Nat) :
    (mWithIS m R).tr = m.tr := rfl

/-- `OpRes` with residual control-flow-stack entries pushed into the
carried state. -/
def opResIS (r : OpRes) (R : List Nat) : OpRes :=
  match r with
  | .ok s inp out => .ok (sWithIS s R) inp out
  | .exit0 => .exit0
  | .err e => .err e

theorem getCell_IS (s : BfiState) (R : List Nat) : getCell (sWithIS s R) = getCell s := rfl

theorem getIntCell_IS (s : BfiState) (R : List Nat) :
    getIntCell (sWithIS s R) = getIntCell s := rfl

theorem setCellE_IS (s : BfiState) (R : List Nat) (v : PyVal) :
    setCellE (sWithIS s R) v = (setCellE s v).map (fun t => sWithIS t R) := by
  by_cases h : s.stack_ptr < s.stack.length <;>
    simp [setCellE, pyListSet, sWithIS, h, Except.map]

theorem inc_IS (s : BfiState) (R : List Nat) :
    inc (sWithIS s R) = (inc s).map (fun t => sWithIS t R) := by
  cases h : getIntCell s with
  | ok v => simp [inc, getIntCell_IS, h, setCellE_IS]
  | error e => simp [inc, getIntCell_IS, h, Except.map]

theorem dec_IS (s : BfiState) (R : List Nat) :
    dec (sWithIS s R) = (dec s).map (fun t => sWithIS t R) := by
  cases h : getIntCell s with
  | ok v => simp [dec, getIntCell_IS, h, setCellE_IS]
  | error e => simp [dec, getIntCell_IS, h, Except.map]

theorem inc_ptr_IS (s : BfiState) (R : List Nat) :
    inc_ptr (sWithIS s R) = (inc_ptr s).map (fun t => sWithIS t R) := by
  by_cases h : s.stack_length = 0 <;> simp [inc_ptr, sWithIS, h, Except.map]

theorem dec_ptr_IS (s : BfiState) (R : List Nat) :
    dec_ptr (sWithIS s R) = (dec_ptr s).map (fun t => sWithIS t R) := by
  by_cases h : s.stack_length = 0 <;> simp [dec_ptr, sWithIS, h, Except.map]

theorem open_brace_IS (s : BfiState) (R : List Nat) :
    open_brace (sWithIS s R) = (open_brace s).map (fun t => sWithIS t R) := by
  simp [open_brace, sWithIS, Except.map]

theorem put_char_IS (s : BfiState) (R : List Nat) (inp : List (List Char)) :
    put_char (sWithIS s R) inp = opResIS (put_char s inp) R := by
  cases h : getCell s with
  | error e => simp [put_char, getCell_IS, h, opResIS]
  | ok v =>
    cases v with
    | strV c => simp [put_char, getCell_IS, h, opResIS]
    | intV n => by_cases hn : n < 1114112 <;> simp [put_char, getCell_IS, h, hn, opResIS]

theorem get_char_IS (s : BfiState) (R : List Nat) (inp : List (List Char)) :
    get_char (sWithIS s R) inp = opResIS (get_char s inp) R := by
  cases inp with
  | nil => simp [get_char, opResIS]
  | cons line rest =>
    cases line with
    | nil => simp [get_char, opResIS]
    | cons ch rest2 =>
      cases h : setCellE s (.strV ch) with
      | ok t => simp [get_char, setCellE_IS, h, opResIS, Except.map]
      | error e => simp [get_char, setCellE_IS, h, opResIS, Except.map]

theorem close_brace_IS (s t : BfiState) (R : List Nat) (h : close_brace s = .ok t) :
    close_brace (sWithIS s R) = .ok (sWithIS t R) := by
  unfold close_brace at h ⊢
  rw [getCell_IS]
  cases hg : getCell s with
  | error e =>
    simp only [hg] at h
    exact absurd h (by simp)
  | ok v =>
    simp only [hg] at h ⊢
    by_cases hz : pyNeZero v
    · rw [if_pos hz] at h ⊢
      cases his : s.inst_stack with
      | nil =>
        simp only [his] at h
        exact absurd h (by simp)
      | cons top tl =>
        simp only [his] at h
        simp only [sWithIS_inst_stack, his, List.cons_append]
        injection h with h
        subst h
        rfl
    · rw [if_neg hz] at h ⊢
      cases his : s.inst_stack with
      | nil =>
        simp only [his] at h
        exact absurd h (by simp)
      | cons top tl =>
        simp only [his] at h
        simp only [sWithIS_inst_stack, his, List.cons_append]
        injection h with h
        subst h
        rfl

theorem applyOp_plus (lvl : Nat) (s : BfiState) (inp : List (List Char)) :
    applyOp lvl '+' s inp = liftOp (inc s) inp := rfl

theorem applyOp_minus (lvl : Nat) (s : BfiState) (inp : List (List Char)) :
    applyOp lvl '-' s inp = liftOp (dec s) inp := rfl

theorem applyOp_right (lvl : Nat) (s : BfiState) (inp : List (List Char)) :
    applyOp lvl '>' s inp = liftOp (inc_ptr s) inp := rfl

theorem applyOp_left (lvl : Nat) (s : BfiState) (inp : List (List Char)) :
    applyOp lvl '<' s inp = liftOp (dec_ptr s) inp := rfl

theorem applyOp_put (lvl : Nat) (s : BfiState) (inp : List (List Char)) :
    applyOp lvl '.' s inp = put_char s inp := rfl

theorem applyOp_get (lvl : Nat) (s : BfiState) (inp : List (List Char)) :
    applyOp lvl ',' s inp = get_char s inp := rfl

theorem applyOp_open (lvl : Nat) (s : BfiState) (inp : List (List Char)) :
    applyOp lvl '[' s inp = liftOp (open_brace s) inp := rfl

theorem applyOp_close (lvl : Nat) (s : BfiState) (inp : List (List Char)) :
    applyOp lvl ']' s inp = liftOp (close_brace s) inp := rfl

theorem liftOp_IS (f : BfiState → Except PyError BfiState) (s : BfiState) (R : List Nat)
    (hf : f (sWithIS s R) = (f s).map (fun u => sWithIS u R))
    (inp inp2 : List (List Char)) (t : BfiState) (outc : List Nat)
    (h : liftOp (f s) inp = .ok t inp2 outc) :
    liftOp (f (sWithIS s R)) inp = .ok (sWithIS t R) inp2 outc := by
  rw [hf]
  cases hv : f s with
  | ok u =>
    rw [hv] at h
    simp [liftOp] at h
    obtain ⟨h1, h2, h3⟩ := h
    subst h1
    subst h2
    subst h3
    simp [liftOp, Except.map]
  | error e =>
    rw [hv] at h
    simp [liftOp] at h

theorem applyOp0_IS (c : Char) (hc : c ∈ commandChars 0) (s : BfiState)
    (inp inp2 : List (List Char)) (R : List Nat) (t : BfiState) (outc : List Nat)
    (h : applyOp 0 c s inp = .ok t inp2 outc) :
    applyOp 0 c (sWithIS s R) inp = .ok (sWithIS t R) inp2 outc := by
  simp [commandChars] at hc
  rcases hc with rfl | rfl | rfl | rfl | rfl | rfl | rfl | rfl
  · rw [applyOp_plus] at h ⊢
    exact liftOp_IS inc s R (inc_IS s R) inp inp2 t outc h
  · rw [applyOp_minus] at h ⊢
    exact liftOp_IS dec s R (dec_IS s R) inp inp2 t outc h
  · rw [applyOp_right] at h ⊢
    exact liftOp_IS inc_ptr s R (inc_ptr_IS s R) inp inp2 t outc h
  · rw [applyOp_left] at h ⊢
    exact liftOp_IS dec_ptr s R (dec_ptr_IS s R) inp inp2 t outc h
  · rw [applyOp_put] at h ⊢
    rw [put_char_IS, h]
    rfl
  · rw [applyOp_get] at h ⊢
    rw [get_char_IS, h]
    rfl
  · rw [applyOp_open] at h ⊢
    exact liftOp_IS open_brace s R (open_brace_IS s R) inp inp2 t outc h
  · rw [applyOp_close] at h ⊢
    cases hv : close_brace s with
    | ok u =>
      rw [hv] at h
      simp [liftOp] at h
      obtain ⟨h1, h2, h3⟩ := h
      subst h1
      subst h2
      subst h3
      rw [close_brace_IS s u R hv]
      rfl
    | error e =>
      rw [hv] at h
      simp [liftOp] at h

theorem step0_IS (m m2 : Machine) (R : List Nat) (h : step 0 m = .ok m2) :
    step 0 (mWithIS m R) = .ok (mWithIS m2 R) := by
  unfold step at h ⊢
  simp only [mWithIS_st, mWithIS_inp, mWithIS_out, mWithIS_tr, sWithIS_program,
    sWithIS_inst_ptr]
  cases hf : m.st.program[m.st.inst_ptr]? with
  | none =>
    rw [hf] at h
    dsimp only at h
    exact absurd h (by simp)
  | some c =>
    rw [hf] at h
    dsimp only at h ⊢
    by_cases hc : (commandChars 0).contains c
    · rw [if_pos hc] at h ⊢
      cases ha : applyOp 0 c m.st m.inp with
      | ok s2 inp2 outc =>
        rw [ha] at h
        have hmem : c ∈ commandChars 0 := by
          simpa using hc
        rw [applyOp0_IS c hmem m.st m.inp inp2 R s2 outc ha]
        injection h with h
        subst h
        rfl
      | exit0 =>
        rw [ha] at h
        simp at h
      | err e =>
        rw [ha] at h
        simp at h
    · rw [if_neg hc] at h ⊢
      injection h with h
      subst h
      rfl

theorem run0_IS (fuel : Nat) : ∀ (m m1 : Machine) (R : List Nat),
    run 0 fuel m = .done m1 → run 0 fuel (mWithIS m R) = .done (mWithIS m1 R) := by
  induction fuel with
  | zero =>
    intro m m1 R h
    unfold run at h ⊢
    simp only [mWithIS_st, sWithIS_inst_ptr, sWithIS_program]
    by_cases hip : m.st.inst_ptr < m.st.program.length
    · rw [if_pos hip] at h
      simp at h
    · rw [if_neg hip] at h ⊢
      injection h with h
      subst h
      rfl
  | succ fuel ih =>
    intro m m1 R h
    unfold run at h ⊢
    simp only [mWithIS_st, sWithIS_inst_ptr, sWithIS_program]
    by_cases hip : m.st.inst_ptr < m.st.program.length
    · rw [if_pos hip] at h ⊢
      cases hs : step 0 m with
      | ok m2 =>
        rw [hs] at h
        rw [step0_IS m m2 R hs]
        exact ih m2 m1 R h
      | exit0 m2 =>
        rw [hs] at h
        simp at h
      | err e m2 =>
        rw [hs] at h
        simp at h
    · rw [if_neg hip] at h ⊢
      injection h with h
      subst h
      rfl

/-- The attribute fields no level-0 operation ever writes: capacity,
loaded program, register, initializer data and redirection pointer. -/
def framePresv (s t : BfiState) : Prop :=
  t.stack_length = s.stack_length ∧ t.program = s.program ∧ t.storage = s.storage ∧
  t.init_data = s.init_data ∧ t.storage_ptr = s.storage_ptr

theorem liftOp_ok_inv (r : Except PyError BfiState) (inp inp2 : List (List Char))
    (t : BfiState) (outc : List Nat) (h : liftOp r inp = .ok t inp2 outc) :
    r = .ok t ∧ inp2 = inp ∧ outc = [] := by
  cases r with
  | ok u =>
    simp [liftOp] at h
    obtain ⟨rfl, rfl, rfl⟩ := h
    exact ⟨rfl, rfl, rfl⟩
  | error e => simp [liftOp] at h

theorem setCellE_frame (s t : BfiState) (v : PyVal) (h : setCellE s v = .ok t) :
    framePresv s t := by
  unfold setCellE at h
  by_cases hl : s.stack_ptr < s.stack.length
  · simp [pyListSet, hl] at h
    subst h
    exact ⟨rfl, rfl, rfl, rfl, rfl⟩
  · simp [pyListSet, hl] at h

theorem inc_frame (s t : BfiState) (h : inc s = .ok t) : framePresv s t := by
  unfold inc at h
  cases hg : getIntCell s with
  | ok v =>
    simp only [hg] at h
    exact setCellE_frame s t _ h
  | error e =>
    simp only [hg] at h
    exact absurd h (by simp)

theorem dec_frame (s t : BfiState) (h : dec s = .ok t) : framePresv s t := by
  unfold dec at h
  cases hg : getIntCell s with
  | ok v =>
    simp only [hg] at h
    exact setCellE_frame s t _ h
  | error e =>
    simp only [hg] at h
    exact absurd h (by simp)

theorem inc_ptr_frame (s t : BfiState) (h : inc_ptr s = .ok t) : framePresv s t := by
  unfold inc_ptr at h
  by_cases hl : s.stack_length = 0
  · rw [if_pos hl] at h
    exact absurd h (by simp)
  · rw [if_neg hl] at h
    injection h with h
    subst h
    exact ⟨rfl, rfl, rfl, rfl, rfl⟩

theorem dec_ptr_frame (s t : BfiState) (h : dec_ptr s = .ok t) : framePresv s t := by
  unfold dec_ptr at h
  by_cases hl : s.stack_length = 0
  · rw [if_pos hl] at h
    exact absurd h (by simp)
  · rw [if_neg hl] at h
    injection h with h
    subst h
    exact ⟨rfl, rfl, rfl, rfl, rfl⟩

theorem open_brace_frame (s t : BfiState) (h : open_brace s = .ok t) : framePresv s t := by
  unfold open_brace at h
  injection h with h
  subst h
  exact ⟨rfl, rfl, rfl, rfl, rfl⟩

theorem close_brace_frame (s t : BfiState) (h : close_brace s = .ok t) : framePresv s t := by
  unfold close_brace at h
  cases hg : getCell s with
  | error e =>
    simp only [hg] at h
    exact absurd h (by simp)
  | ok v =>
    simp only [hg] at h
    by_cases hz : pyNeZero v
    · rw [if_pos hz] at h
      cases his : s.inst_stack with
      | nil =>
        simp only [his] at h
        exact absurd h (by simp)
      | cons top tl =>
        simp only [his] at h
        injection h with h
        subst h
        exact ⟨rfl, rfl, rfl, rfl, rfl⟩
    · rw [if_neg hz] at h
      cases his : s.inst_stack with
      | nil =>
        simp only [his] at h
        exact absurd h (by simp)
      | cons top tl =>
        simp only [his] at h
        injection h with h
        subst h
        exact ⟨rfl, rfl, rfl, rfl, rfl⟩

theorem put_char_frame (s t : BfiState) (inp inp2 : List (List Char)) (outc : List Nat)
    (h : put_char s inp = .ok t inp2 outc) : framePresv s t := by
  unfold put_char at h
  cases hg : getCell s with
  | error e =>
    simp only [hg] at h
    exact absurd h (by simp)
  | ok v =>
    simp only [hg] at h
    cases v with
    | strV c => exact absurd h (by simp)
    | intV n =>
      dsimp only at h
      by_cases hn : n < 1114112
      · rw [if_pos hn] at h
        injection h with h1 h2 h3
        subst h1
        exact ⟨rfl, rfl, rfl, rfl, rfl⟩
      · rw [if_neg hn] at h
        exact absurd h (by simp)

theorem get_char_frame (s t : BfiState) (inp inp2 : List (List Char)) (outc : List Nat)
    (h : get_char s inp = .ok t inp2 outc) : framePresv s t := by
  unfold get_char at h
  cases inp with
  | nil => simp at h
  | cons line rest =>
    cases line with
    | nil => simp at h
    | cons ch r2 =>
      cases hs : setCellE s (.strV ch) with
      | ok u =>
        simp only [hs] at h
        injection h with h1 h2 h3
        subst h1
        exact setCellE_frame _ _ _ hs
      | error e =>
        simp only [hs] at h
        exact absurd h (by simp)

theorem applyOp0_frame (c : Char) (hc : c ∈ commandChars 0) (s t : BfiState)
    (inp inp2 : List (List Char)) (outc : List Nat)
    (h : applyOp 0 c s inp = .ok t inp2 outc) : framePresv s t := by
  simp [commandChars] at hc
  rcases hc with rfl | rfl | rfl | rfl | rfl | rfl | rfl | rfl
  · rw [applyOp_plus] at h
    obtain ⟨h1, -, -⟩ := liftOp_ok_inv _ _ _ _ _ h
    exact inc_frame s t h1
  · rw [applyOp_minus] at h
    obtain ⟨h1, -, -⟩ := liftOp_ok_inv _ _ _ _ _ h
    exact dec_frame s t h1
  · rw [applyOp_right] at h
    obtain ⟨h1, -, -⟩ := liftOp_ok_inv _ _ _ _ _ h
    exact inc_ptr_frame s t h1
  · rw [applyOp_left] at h
    obtain ⟨h1, -, -⟩ := liftOp_ok_inv _ _ _ _ _ h
    exact dec_ptr_frame s t h1
  · rw [applyOp_put] at h
    exact put_char_frame s t inp inp2 outc h
  · rw [applyOp_get] at h
    exact get_char_frame s t inp inp2 outc h
  · rw [applyOp_open] at h
    obtain ⟨h1, -, -⟩ := liftOp_ok_inv _ _ _ _ _ h
    exact open_brace_frame s t h1
  · rw [applyOp_close] at h
    obtain ⟨h1, -, -⟩ := liftOp_ok_inv _ _ _ _ _ h
    exact close_brace_frame s t h1

theorem step0_frame (m m2 : Machine) (h : step 0 m = .ok m2) : framePresv m.st m2.st := by
  unfold step at h
  cases hf : m.st.program[m.st.inst_ptr]? with
  | none =>
    rw [hf] at h
    dsimp only at h
    exact absurd h (by simp)
  | some c =>
    rw [hf] at h
    dsimp only at h
    by_cases hc : (commandChars 0).contains c
    · rw [if_pos hc] at h
      cases ha : applyOp 0 c m.st m.inp with
      | ok s2 inp2 outc =>
        simp only [ha] at h
        injection h with h
        subst h
        have hmem : c ∈ commandChars 0 := by simpa using hc
        exact applyOp0_frame c hmem m.st s2 m.inp inp2 outc ha
      | exit0 =>
        simp only [ha] at h
        exact absurd h (by simp)
      | err e =>
        simp only [ha] at h
        exact absurd h (by simp)
    · rw [if_neg hc] at h
      injection h with h
      subst h
      exact ⟨rfl, rfl, rfl, rfl, rfl⟩

theorem run0_frame (fuel : Nat) : ∀ (m m1 : Machine),
    run 0 fuel m = .done m1 → framePresv m.st m1.st := by
  induction fuel with
  | zero =>
    intro m m1 h
    unfold run at h
    by_cases hip : m.st.inst_ptr < m.st.program.length
    · rw [if_pos hip] at h
      exact absurd h (by simp)
    · rw [if_neg hip] at h
      injection h with h
      subst h
      exact ⟨rfl, rfl, rfl, rfl, rfl⟩
  | succ fuel ih =>
    intro m m1 h
    unfold run at h
    by_cases hip : m.st.inst_ptr < m.st.program.length
    · rw [if_pos hip] at h
      cases hs : step 0 m with
      | ok m2 =>
        simp only [hs] at h
        obtain ⟨a1, a2, a3, a4, a5⟩ := step0_frame m m2 hs
        obtain ⟨b1, b2, b3, b4, b5⟩ := ih m2 m1 h
        exact ⟨b1.trans a1, b2.trans a2, b3.trans a3, b4.trans a4, b5.trans a5⟩
      | exit0 m2 =>
        simp only [hs] at h
        exact absurd h (by simp)
      | err e m2 =>
        simp only [hs] at h
        exact absurd h (by simp)
    · rw [if_neg hip] at h
      injection h with h
      subst h
      exact ⟨rfl, rfl, rfl, rfl, rfl⟩

theorem state_ip0 (s : BfiState) (h0 : s.inst_ptr = 0) : {s with inst_ptr := 0} = s := by
  cases s
  simp at h0
  simp [h0]

theorem evaluate_eq_run (lvl fuel : Nat) (s : BfiState) (inp : List (List Char))
    (h0 : s.inst_ptr = 0) :
    evaluate lvl fuel ⟨s, inp, [], []⟩ = run lvl fuel ⟨s, inp, [], []⟩ := by
  unfold evaluate
  dsimp only
  rw [state_ip0 s h0]

/-- Claim C7, counterexample.  At dialect level 1 the source consisting
of load-register-to-cell, output, increment, store-cell-to-register,
loaded and run twice on the same interpreter instance, produces two
different execution traces: `reset` does not restore the scratch
register, so the second run reads back the 1 the first run stored (the
first run outputs code 0, the second code 1). -/
theorem C7_cex :
    (roundTripTraces 1 1 9 ['!', '.', '+', '$'] []).map (fun p => p.1 == p.2) =
      some false := by
  decide

/-- Claim C7, amended: at dialect level 0 the round trip does hold —
loading a source into a fresh interpreter, running to normal
completion, loading the same source again on the same instance and
running again yields an identical observable trace, identical output
and identical cycle count (both runs being fed the same input lines
from the external device).  At levels 1 and above it fails because
`reset` leaves the scratch register behind (and halting exits the
process). -/
theorem C7_amended (L fuel : Nat) (src : List Char) (inp : List (List Char))
    (s1 s2 : BfiState) (m1 : Machine)
    (h1 : loadProgram 0 (initState L) src = .ok s1)
    (h2 : evaluate 0 fuel ⟨s1, inp, [], []⟩ = .done m1)
    (h3 : loadProgram 0 m1.st src = .ok s2) :
    ∃ m2, evaluate 0 fuel ⟨s2, inp, [], []⟩ = .done m2 ∧
      m2.tr = m1.tr ∧ m2.out = m1.out ∧ m2.st.cycles = m1.st.cycles := by
  by_cases hz : brace_count src 0 = 0
  case neg =>
    exfalso
    simp [loadProgram, loadBase, hz] at h1
  case pos =>
  have hload : ∀ s0 : BfiState, loadProgram 0 s0 src =
      .ok (resetBase {s0 with program := src.filter (fun b => (commandChars 0).contains b)}) := by
    intro s0
    simp [loadProgram, loadBase, hz, resetLvl]
  rw [hload] at h1 h3
  injection h1 with h1
  injection h3 with h3
  subst h1
  subst h3
  rw [evaluate_eq_run 0 fuel _ inp rfl] at h2
  rw [evaluate_eq_run 0 fuel _ inp rfl]
  obtain ⟨hlen, hprog, hstor, hinit, hsp⟩ := run0_frame fuel _ m1 h2
  simp only [resetBase, initState] at hlen hstor hinit hsp
  have hs2 : resetBase {m1.st with program := src.filter (fun b => (commandChars 0).contains b)} =
      sWithIS (resetBase {initState L with
        program := src.filter (fun b => (commandChars 0).contains b)}) m1.st.inst_stack := by
    simp [resetBase, sWithIS, initState, BfiState.mk.injEq, hlen, hstor, hinit, hsp]
  rw [hs2]
  refine ⟨mWithIS m1 m1.st.inst_stack, ?_, by simp, by simp, by simp⟩
  exact run0_IS fuel ⟨resetBase {initState L with
    program := src.filter (fun b => (commandChars 0).contains b)}, inp, [], []⟩ m1
    m1.st.inst_stack h2

/-- The level-0 state right after loading the one-symbol increment
program into a fresh capacity-1 interpreter. -/
def c7loaded : BfiState :=
  { stack_length := 1
    stack := [.intV 0]
    stack_ptr := 0
    inst_stack := []
    inst_ptr := 0
    cycles := 0
    program := ['+']
    storage := .intV 0
    init_data := []
    storage_ptr := none }

/-- The completed machine of the claim-C7 witness run. -/
def c7done : Machine :=
  ⟨{c7loaded with stack := [.intV 1], inst_ptr := 1, cycles := 1}, [], [],
    [⟨0, '+', [.intV 1], 0, .intV 0, none, 1⟩]⟩

/-- Claim C7, amended-claim witness at a concrete source. -/
theorem C7_amended_witness :
    loadProgram 0 (initState 1) ['+'] = .ok c7loaded ∧
    evaluate 0 2 ⟨c7loaded, [], [], []⟩ = .done c7done ∧
    loadProgram 0 c7done.st ['+'] = .ok c7loaded ∧
    ∃ m2, evaluate 0 2 ⟨c7loaded, [], [], []⟩ = .done m2 ∧
      m2.tr = c7done.tr ∧ m2.out = c7done.out ∧ m2.st.cycles = c7done.st.cycles :=
  ⟨by decide, by decide, by decide,
    C7_amended 1 2 ['+'] [] c7loaded c7loaded c7done (by decide) (by decide) (by decide)⟩

end BF

